import Mathlib

/-!
Verification development for the photo-sync orchestrator
(`src/python/photo-sync.py`).

The development shallowly embeds the parts of the program that the
properties below are about:

* the SQLite-backed `StateDB` (the `assets` table and its operations
  `add_assets`, `get_pending_assets`, `mark_completed`, `mark_failed`,
  `backup_database`),
* the per-asset retry loop `_process_asset_with_retries`,
* the asset-processing loop `_process_assets` together with the exit-code
  computation of `_print_summary` / `run`,
* the command-line parsing and flag validation in `main`.

Modelling conventions:

* The `assets` table is a list of rows in rowid (insertion) order;
  `asset_id` is the primary key.
* SQL `TEXT` ordering (used by `ORDER BY creation_date ASC` and by
  Python's `sorted` over backup filenames) is modelled by an executable
  lexicographic comparison on the characters of the string
  (`strLe` / `strLt` below).  The SQL query orders only by
  `creation_date`; its behaviour on rows with equal `creation_date` is
  not specified by the statement, and the model resolves such ties by
  table (rowid) order, which is what a stable sort over the table scan
  yields.
* NULLable columns are `Option`s; `REAL` durations are carried opaquely
  (no arithmetic is ever performed on them by the embedded code), so they
  are represented by `Nat` payloads.
* Wall-clock timestamps (`datetime.now()`) are environment inputs and are
  passed in explicitly as strings.
-/

/-- Lexicographic order (non-strict) on character lists, comparing code
points; model of byte-wise `TEXT` comparison. -/
def lexLe : List Char → List Char → Bool
  | [], _ => true
  | _ :: _, [] => false
  | a :: as, b :: bs =>
    if a.toNat < b.toNat then true
    else if b.toNat < a.toNat then false
    else lexLe as bs

/-- Lexicographic order (strict) on character lists. -/
def lexLt : List Char → List Char → Bool
  | [], [] => false
  | [], _ :: _ => true
  | _ :: _, [] => false
  | a :: as, b :: bs =>
    if a.toNat < b.toNat then true
    else if b.toNat < a.toNat then false
    else lexLt as bs

/-- Non-strict lexicographic order on strings. -/
def strLe (a b : String) : Bool := lexLe a.data b.data

/-- Strict lexicographic order on strings. -/
def strLt (a b : String) : Bool := lexLt a.data b.data

/-- One row of the `assets` table (schema created in
`StateDB._init_database`, lines 64-78 of `photo-sync.py`). -/
structure AssetRow where
  asset_id : String
  original_filename : String
  asset_type : String
  creation_date : String
  status : String
  immich_id : Option String
  error_message : Option String
  retry_count : Nat
  processed_at : Option String
  file_size : Option Nat
  duration : Option Nat
  upload_bytes : Option Nat
  upload_duration : Option Nat
deriving DecidableEq, Repr

/-- The `assets` table: rows in rowid (insertion) order. -/
abbrev Table := List AssetRow

/-- One element of the Swift `list-assets` response consumed by
`StateDB.add_assets` (`asset['id']`, `asset.get('original_filename', '')`,
`asset['type']`, `asset['creation_date']`). -/
structure AssetInput where
  id : String
  original_filename : Option String
  type : String
  creation_date : String
deriving DecidableEq, Repr

/-- The row inserted for a newly discovered asset: status `'pending'`,
every other column at its schema default (`retry_count` 0, NULLs). -/
def newRow (a : AssetInput) : AssetRow :=
  { asset_id := a.id
    original_filename := a.original_filename.getD ""
    asset_type := a.type
    creation_date := a.creation_date
    status := "pending"
    immich_id := none
    error_message := none
    retry_count := 0
    processed_at := none
    file_size := none
    duration := none
    upload_bytes := none
    upload_duration := none }

/-- Does the table contain a row with the given primary key? -/
def hasAsset (t : Table) (id : String) : Bool :=
  t.any (fun r => r.asset_id == id)

/-- One `INSERT OR IGNORE` step: a row whose `asset_id` is already present
is left untouched, otherwise a fresh `'pending'` row is appended. -/
def insertOrIgnore (t : Table) (a : AssetInput) : Table :=
  if hasAsset t a.id then t else t ++ [newRow a]

/-- `StateDB.add_assets` (lines 85-102): bulk `INSERT OR IGNORE` of the
discovered assets, in list order (`executemany`). -/
def add_assets (t : Table) (assets : List AssetInput) : Table :=
  assets.foldl insertOrIgnore t

/-- The `WHERE` clause of `StateDB.get_pending_assets` (line 107):
`status='pending' OR (status='failed' AND retry_count < ?)`. -/
def eligible (max_retries : Nat) (r : AssetRow) : Bool :=
  r.status == "pending" || (r.status == "failed" && r.retry_count < max_retries)

/-- The `ORDER BY creation_date ASC` comparison between two rows. -/
def dateLe (a b : AssetRow) : Prop := strLe a.creation_date b.creation_date = true

instance : DecidableRel dateLe :=
  fun _ _ => inferInstanceAs (Decidable (_ = true))

/-- `StateDB.get_pending_assets` (lines 104-110): the rows satisfying the
`WHERE` clause, ordered by `creation_date ASC` (a stable sort over the
table scan; ties keep table order — the SQL names no tie-breaking key). -/
def get_pending_assets (t : Table) (max_retries : Nat) : List AssetRow :=
  List.insertionSort dateLe (t.filter (eligible max_retries))

/-- `StateDB.mark_completed` (lines 112-120): an unconditional `UPDATE` of
the row whose `asset_id` matches (zero rows touched when absent). -/
def mark_completed (t : Table) (asset_id immich_id : String)
    (file_size upload_bytes upload_duration : Nat) (now : String) : Table :=
  t.map fun r =>
    if r.asset_id == asset_id then
      { r with
        status := "completed"
        immich_id := some immich_id
        file_size := some file_size
        upload_bytes := some upload_bytes
        upload_duration := some upload_duration
        processed_at := some now }
    else r

/-- `StateDB.mark_failed` (lines 122-128): an unconditional `UPDATE` of the
row whose `asset_id` matches, setting `status='failed'`, storing the error
message, incrementing `retry_count`, stamping `processed_at`. -/
def mark_failed (t : Table) (asset_id error_message : String) (now : String) : Table :=
  t.map fun r =>
    if r.asset_id == asset_id then
      { r with
        status := "failed"
        error_message := some error_message
        retry_count := r.retry_count + 1
        processed_at := some now }
    else r

/-- Primary-key lookup on the table (first row with the given id). -/
def lookup (t : Table) (id : String) : Option AssetRow :=
  t.find? (fun r => r.asset_id == id)

/-- The stored `retry_count` of an asset, 0 when the row is absent. -/
def retryOf (t : Table) (id : String) : Nat :=
  ((lookup t id).map AssetRow.retry_count).getD 0

/-- Number of rows with the given status (as in `StateDB.get_stats`). -/
def countStatus (t : Table) (s : String) : Nat :=
  (t.filter (fun r => r.status == s)).length

/-- One mutating `StateDB` call touching the `assets` table, for stating
properties over a whole store lifetime. -/
inductive DBOp where
  | addAssets (assets : List AssetInput)
  | markCompleted (asset_id immich_id : String)
      (file_size upload_bytes upload_duration : Nat) (now : String)
  | markFailed (asset_id error_message now : String)
deriving Repr

/-- Interpretation of one mutating call on the table. -/
def applyOp (t : Table) : DBOp → Table
  | .addAssets assets => add_assets t assets
  | .markCompleted id im fs ub ud now => mark_completed t id im fs ub ud now
  | .markFailed id err now => mark_failed t id err now

/-- The backup filename built in `StateDB.backup_database` (line 165):
`state_backup_{timestamp}.db`. -/
def backupName (timestamp : String) : String :=
  "state_backup_" ++ timestamp ++ ".db"

/-- Order used by `sorted(glob.glob('state_backup_*.db'))`. -/
def strLeR (a b : String) : Prop := strLe a b = true

instance : DecidableRel strLeR :=
  fun _ _ => inferInstanceAs (Decidable (_ = true))

/-- Strict counterpart of `strLeR`, used to state that successive backup
filenames are distinct and increasing. -/
def strLtR (a b : String) : Prop := strLt a b = true

instance : DecidableRel strLtR :=
  fun _ _ => inferInstanceAs (Decidable (_ = true))

/-- The slice kept by the pruning loop of `StateDB.backup_database`: the
loop removes `backups[:-5]`, keeping `backups[-5:]`, that is, all but the
last 5 entries of the sorted list are dropped. -/
def keepLast5 (l : List String) : List String :=
  l.drop (l.length - 5)

/-- `StateDB.backup_database` (lines 162-173), acting on the set of backup
files next to the database: `shutil.copy2` writes (or overwrites) the file
named after the current timestamp, then every backup except the 5 greatest
in lexicographic filename order is removed (`backups[:-5]`). -/
def backup_database (files : List String) (timestamp : String) : List String :=
  let name := backupName timestamp
  let files2 := if files.contains name then files else files ++ [name]
  keepLast5 (List.insertionSort strLeR files2)

/-- Outcome of one attempt of the export-then-upload body of the retry loop
(lines 394-421): either the upload succeeded, yielding the remote id and
the metrics passed to `mark_completed`, or some step raised. -/
inductive AttemptOutcome where
  | success (immich_id : String) (file_size : Nat) (upload_duration : Nat)
  | failure (error_message : String)
deriving Repr

/-- Result of `_process_asset_with_retries`: the table after the call, the
boolean the function returns, and the backoff sleeps performed (ms). -/
structure ProcResult where
  table : Table
  ok : Bool
  sleeps : List Nat
deriving Repr

/-- The delay expression of line 427:
`retry_delays[min(attempt, len(retry_delays) - 1)]` (in ms). -/
def backoffDelay (retry_delays : List Nat) (attempt : Nat) : Nat :=
  retry_delays.getD (min attempt (retry_delays.length - 1)) 0

/-- The body of the `for attempt in range(max_retries)` loop of
`_process_asset_with_retries` (lines 393-436), iterating over the list of
remaining attempt indices.  On a successful attempt the asset is marked
completed (note line 418 passes `file_size` for `upload_bytes` as well)
and the loop returns `True`; on a failing attempt with
`attempt < max_retries - 1` (line 426) the loop sleeps the line-427 delay
and retries; otherwise (the final attempt) it calls `mark_failed` once and
returns `False`.  Falling off the loop returns `False` (line 436). -/
def processAttempts (t : Table) (asset_id : String) (max_retries : Nat)
    (retry_delays : List Nat) (outcomes : Nat → AttemptOutcome)
    (now : String) : List Nat → ProcResult
  | [] => ⟨t, false, []⟩
  | attempt :: rest =>
    match outcomes attempt with
    | .success immich_id file_size upload_duration =>
        ⟨mark_completed t asset_id immich_id file_size file_size upload_duration now,
         true, []⟩
    | .failure err =>
        if attempt < max_retries - 1 then
          let d := backoffDelay retry_delays attempt
          let r := processAttempts t asset_id max_retries retry_delays outcomes now rest
          ⟨r.table, r.ok, d :: r.sleeps⟩
        else
          ⟨mark_failed t asset_id err now, false, []⟩

/-- `_process_asset_with_retries` (lines 385-436) for one asset: run the
attempt loop over `range(max_retries)`. -/
def process_asset_with_retries (t : Table) (asset_id : String) (max_retries : Nat)
    (retry_delays : List Nat) (outcomes : Nat → AttemptOutcome) (now : String) : ProcResult :=
  processAttempts t asset_id max_retries retry_delays outcomes now
    (List.range max_retries)

/-- An environment in which every export/upload attempt raises with the
given message. -/
def allFail (error_message : String) : Nat → AttemptOutcome :=
  fun _ => AttemptOutcome.failure error_message

/-- The `for i, asset in enumerate(pending_assets)` loop of
`_process_assets` (lines 469-498): before each asset the shutdown flag is
checked (line 470) and, when set, the loop breaks; otherwise the asset is
processed with retries and the loop moves on. -/
def processList (max_retries : Nat) (retry_delays : List Nat)
    (outcomes : String → Nat → AttemptOutcome) (shutdownAt : Nat → Bool)
    (now : String) : Table → List AssetRow → Nat → Table
  | t, [], _ => t
  | t, a :: rest, i =>
    if shutdownAt i then t
    else
      processList max_retries retry_delays outcomes shutdownAt now
        (process_asset_with_retries t a.asset_id max_retries retry_delays
          (outcomes a.asset_id) now).table
        rest (i + 1)

/-- `_process_assets` (lines 438-498): fetch the eligible assets once, then
run the processing loop over them. -/
def process_assets (t : Table) (max_retries : Nat) (retry_delays : List Nat)
    (outcomes : String → Nat → AttemptOutcome) (shutdownAt : Nat → Bool)
    (now : String) : Table :=
  processList max_retries retry_delays outcomes shutdownAt now t
    (get_pending_assets t max_retries) 0

/-- The exit code computed by `_print_summary` (line 519):
`0 if stats['failed'] == 0 else 1`. -/
def print_summary_exit (t : Table) : Nat :=
  if countStatus t "failed" = 0 then 0 else 1

/-- The processing-phase tail of `run` (lines 559-562): process the
eligible assets (the loop breaks early when the shutdown flag is set) and
return `_print_summary`'s exit code.  The installed SIGINT/SIGTERM handler
(lines 192-198) only sets the shutdown flag, so an operator interrupt
reaches this path, not the `except KeyboardInterrupt` branch. -/
def run_exit (t : Table) (max_retries : Nat) (retry_delays : List Nat)
    (outcomes : String → Nat → AttemptOutcome) (shutdownAt : Nat → Bool)
    (now : String) : Nat :=
  print_summary_exit
    (process_assets t max_retries retry_delays outcomes shutdownAt now)

/-- The argparse result fields relevant to flag validation (`main`,
lines 591-608). -/
structure CliArgs where
  screenshots_only : Bool
  no_screenshots : Bool
  resume : Bool
  reset : Bool
  dry_run : Bool
deriving DecidableEq, Repr

/-- Parsing of the boolean flags of `main`: each `action='store_true'`
flag is `True` iff present — except `--no-screenshots`, declared with
`action='store_true', default=True` (line 597), whose stored value is
`True` whether or not the flag is passed. -/
def parse_args (flags : List String) : CliArgs :=
  { screenshots_only := flags.contains "--screenshots-only"
    no_screenshots := true
    resume := flags.contains "--resume"
    reset := flags.contains "--reset"
    dry_run := flags.contains "--dry-run" }

/-- What `main` does after parsing: `parser.error` aborts the invocation
(exit code 2, nothing else runs), otherwise the orchestrator is built and
run. -/
inductive MainOutcome where
  | cli_error (msg : String)
  | run_orchestrator (args : CliArgs)
deriving DecidableEq, Repr

/-- The flag-combination validation of `main` (lines 610-619): the two
mutual-exclusion checks run before any orchestrator or `StateDB` work. -/
def main_model (flags : List String) : MainOutcome :=
  let args := parse_args flags
  if args.screenshots_only && args.no_screenshots then
    .cli_error "Cannot use both --screenshots-only and --no-screenshots"
  else if args.resume && args.reset then
    .cli_error "Cannot use both --resume and --reset"
  else
    .run_orchestrator args

/-- A concrete successfully-synced row, as left behind by
`mark_completed`. -/
def rowCompleted : AssetRow :=
  { asset_id := "a1"
    original_filename := "IMG_0001.HEIC"
    asset_type := "image"
    creation_date := "2024-01-01T00:00:00Z"
    status := "completed"
    immich_id := some "im-1"
    error_message := none
    retry_count := 0
    processed_at := some "2024-01-02T00:00:00Z"
    file_size := some 100
    duration := none
    upload_bytes := some 100
    upload_duration := some 2 }

/-- A concrete pending row with `asset_id` `"a"`. -/
def rowTieA : AssetRow :=
  { asset_id := "a"
    original_filename := "IMG_0002.HEIC"
    asset_type := "image"
    creation_date := "2024-03-03T00:00:00Z"
    status := "pending"
    immich_id := none
    error_message := none
    retry_count := 0
    processed_at := none
    file_size := none
    duration := none
    upload_bytes := none
    upload_duration := none }

/-- A concrete pending row with `asset_id` `"b"` and the same
`creation_date` as `rowTieA`. -/
def rowTieB : AssetRow :=
  { rowTieA with
    asset_id := "b"
    original_filename := "IMG_0003.HEIC" }

/-- A concrete discovery record matching `rowTieA`'s primary key. -/
def inputA : AssetInput :=
  { id := "a"
    original_filename := some "IMG_0002.HEIC"
    type := "image"
    creation_date := "2024-03-03T00:00:00Z" }

/-! ### Lemmas on the lexicographic string order -/

theorem lexLe_total : ∀ a b : List Char, lexLe a b = true ∨ lexLe b a = true
  | [], _ => Or.inl rfl
  | _ :: _, [] => Or.inr rfl
  | a :: as, b :: bs => by
    by_cases h1 : a.toNat < b.toNat
    · left
      simp [lexLe, h1]
    · by_cases h2 : b.toNat < a.toNat
      · right
        simp [lexLe, h1, h2]
      · rcases lexLe_total as bs with h | h
        · left
          simp [lexLe, h1, h2, h]
        · right
          simp [lexLe, h1, h2, h]

theorem lexLe_trans : ∀ a b c : List Char,
    lexLe a b = true → lexLe b c = true → lexLe a c = true
  | [], _, _, _, _ => rfl
  | _ :: _, [], _, h1, _ => by simp [lexLe] at h1
  | _ :: _, _ :: _, [], _, h2 => by simp [lexLe] at h2
  | a :: as, b :: bs, c :: cs, h1, h2 => by
    simp only [lexLe] at h1 h2 ⊢
    by_cases hab1 : a.toNat < b.toNat
    · by_cases hbc1 : b.toNat < c.toNat
      · simp [show a.toNat < c.toNat by omega]
      · by_cases hbc2 : c.toNat < b.toNat
        · simp [hbc1, hbc2] at h2
        · simp [show a.toNat < c.toNat by omega]
    · by_cases hab2 : b.toNat < a.toNat
      · simp [hab1, hab2] at h1
      · by_cases hbc1 : b.toNat < c.toNat
        · simp [show a.toNat < c.toNat by omega]
        · by_cases hbc2 : c.toNat < b.toNat
          · simp [hbc1, hbc2] at h2
          · have hac1 : ¬ a.toNat < c.toNat := by omega
            have hac2 : ¬ c.toNat < a.toNat := by omega
            simp only [if_neg hab1, if_neg hab2] at h1
            simp only [if_neg hbc1, if_neg hbc2] at h2
            simp only [if_neg hac1, if_neg hac2]
            exact lexLe_trans as bs cs h1 h2

theorem lexLt_irrefl : ∀ a : List Char, lexLt a a = false
  | [] => rfl
  | a :: as => by simp [lexLt, lexLt_irrefl as]

theorem lexLt_le : ∀ a b : List Char, lexLt a b = true → lexLe a b = true
  | [], _, _ => rfl
  | _ :: _, [], h => by simp [lexLt] at h
  | a :: as, b :: bs, h => by
    simp only [lexLt] at h
    simp only [lexLe]
    by_cases h1 : a.toNat < b.toNat
    · simp [h1]
    · by_cases h2 : b.toNat < a.toNat
      · simp [h1, h2] at h
      · simp only [if_neg h1, if_neg h2] at h ⊢
        exact lexLt_le as bs h

theorem lexLt_trans : ∀ a b c : List Char,
    lexLt a b = true → lexLt b c = true → lexLt a c = true
  | [], [], _, h1, _ => by simp [lexLt] at h1
  | [], _ :: _, [], _, h2 => by simp [lexLt] at h2
  | [], _ :: _, _ :: _, _, _ => rfl
  | _ :: _, [], _, h1, _ => by simp [lexLt] at h1
  | _ :: _, _ :: _, [], _, h2 => by simp [lexLt] at h2
  | a :: as, b :: bs, c :: cs, h1, h2 => by
    simp only [lexLt] at h1 h2 ⊢
    by_cases hab1 : a.toNat < b.toNat
    · by_cases hbc1 : b.toNat < c.toNat
      · simp [show a.toNat < c.toNat by omega]
      · by_cases hbc2 : c.toNat < b.toNat
        · simp [hbc1, hbc2] at h2
        · simp [show a.toNat < c.toNat by omega]
    · by_cases hab2 : b.toNat < a.toNat
      · simp [hab1, hab2] at h1
      · by_cases hbc1 : b.toNat < c.toNat
        · simp [show a.toNat < c.toNat by omega]
        · by_cases hbc2 : c.toNat < b.toNat
          · simp [hbc1, hbc2] at h2
          · have hac1 : ¬ a.toNat < c.toNat := by omega
            have hac2 : ¬ c.toNat < a.toNat := by omega
            simp only [if_neg hab1, if_neg hab2] at h1
            simp only [if_neg hbc1, if_neg hbc2] at h2
            simp only [if_neg hac1, if_neg hac2]
            exact lexLt_trans as bs cs h1 h2

theorem lexLt_ne {a b : List Char} (h : lexLt a b = true) : a ≠ b := by
  intro he
  rw [he, lexLt_irrefl] at h
  exact Bool.false_ne_true h

theorem lexLt_append_left : ∀ (p a b : List Char),
    lexLt a b = true → lexLt (p ++ a) (p ++ b) = true
  | [], _, _, h => h
  | c :: p, a, b, h => by
    simp only [List.cons_append, lexLt]
    rw [if_neg (Nat.lt_irrefl c.toNat), if_neg (Nat.lt_irrefl c.toNat)]
    exact lexLt_append_left p a b h

theorem lexLt_append_right : ∀ (a b q : List Char),
    a.length = b.length → lexLt a b = true → lexLt (a ++ q) (b ++ q) = true
  | [], [], _, _, h => by simp [lexLt] at h
  | [], _ :: _, _, hl, _ => by simp at hl
  | _ :: _, [], _, hl, _ => by simp at hl
  | a :: as, b :: bs, q, hl, h => by
    simp only [lexLt] at h
    simp only [List.cons_append, lexLt]
    by_cases h1 : a.toNat < b.toNat
    · simp [h1]
    · by_cases h2 : b.toNat < a.toNat
      · simp [h1, h2] at h
      · simp only [if_neg h1, if_neg h2] at h ⊢
        exact lexLt_append_right as bs q (by simpa using hl) h

instance : IsTotal String strLeR :=
  ⟨fun a b => lexLe_total a.data b.data⟩

instance : IsTrans String strLeR :=
  ⟨fun a b c h1 h2 => lexLe_trans a.data b.data c.data h1 h2⟩

instance : IsTrans String strLtR :=
  ⟨fun a b c h1 h2 => lexLt_trans a.data b.data c.data h1 h2⟩

instance : IsTotal AssetRow dateLe :=
  ⟨fun a b => lexLe_total a.creation_date.data b.creation_date.data⟩

instance : IsTrans AssetRow dateLe :=
  ⟨fun a b c h1 h2 =>
    lexLe_trans a.creation_date.data b.creation_date.data c.creation_date.data h1 h2⟩

theorem strLtR_le {a b : String} (h : strLtR a b) : strLeR a b :=
  lexLt_le a.data b.data h

theorem strLtR_ne {a b : String} (h : strLtR a b) : a ≠ b := by
  intro he
  exact lexLt_ne h (congrArg String.data he)

theorem strLt_backupName {a b : String} (hlen : a.length = b.length)
    (h : strLt a b = true) : strLt (backupName a) (backupName b) = true := by
  unfold strLt backupName at *
  rw [String.data_append, String.data_append, String.data_append, String.data_append,
    List.append_assoc, List.append_assoc]
  apply lexLt_append_left
  exact lexLt_append_right a.data b.data ".db".data hlen h

/-! ### Lemmas on the assets table -/

theorem lookup_map_of_id (t : Table) (f : AssetRow → AssetRow) (id : String)
    (hf : ∀ r, (f r).asset_id = r.asset_id) :
    lookup (t.map f) id = (lookup t id).map f := by
  induction t with
  | nil => rfl
  | cons r rest ih =>
    unfold lookup at *
    simp only [List.map_cons, List.find?_cons, hf r]
    cases hr : (r.asset_id == id) with
    | true => rfl
    | false => exact ih

theorem lookup_mark_failed (t : Table) (id e n : String) :
    lookup (mark_failed t id e n) id =
      (lookup t id).map (fun r =>
        { r with
          status := "failed"
          error_message := some e
          retry_count := r.retry_count + 1
          processed_at := some n }) := by
  unfold mark_failed
  rw [lookup_map_of_id _ _ _ (fun r => by by_cases hc : (r.asset_id == id) = true <;> simp [hc])]
  cases h : lookup t id with
  | none => rfl
  | some r =>
    have h' : List.find? (fun x => x.asset_id == id) t = some r := h
    have hpr : (r.asset_id == id) = true :=
      @List.find?_some _ (fun x => x.asset_id == id) r t h'
    simp only [Option.map_some', if_pos hpr]

theorem lookup_mark_completed (t : Table) (id im n : String) (fs ub ud : Nat) :
    lookup (mark_completed t id im fs ub ud n) id =
      (lookup t id).map (fun r =>
        { r with
          status := "completed"
          immich_id := some im
          file_size := some fs
          upload_bytes := some ub
          upload_duration := some ud
          processed_at := some n }) := by
  unfold mark_completed
  rw [lookup_map_of_id _ _ _ (fun r => by by_cases hc : (r.asset_id == id) = true <;> simp [hc])]
  cases h : lookup t id with
  | none => rfl
  | some r =>
    have h' : List.find? (fun x => x.asset_id == id) t = some r := h
    have hpr : (r.asset_id == id) = true :=
      @List.find?_some _ (fun x => x.asset_id == id) r t h'
    simp only [Option.map_some', if_pos hpr]

theorem retryOf_map_mono (t : Table) (f : AssetRow → AssetRow) (id : String)
    (hf : ∀ r, (f r).asset_id = r.asset_id)
    (hr : ∀ r, r.retry_count ≤ (f r).retry_count) :
    retryOf t id ≤ retryOf (t.map f) id := by
  unfold retryOf
  rw [lookup_map_of_id t f id hf]
  cases lookup t id with
  | none => simp
  | some r => simpa using hr r

theorem map_noop_of_absent (t : Table) (id : String) (f : AssetRow → AssetRow)
    (h : lookup t id = none)
    (hother : ∀ r, (r.asset_id == id) = false → f r = r) :
    t.map f = t := by
  have habs : ∀ r ∈ t, (r.asset_id == id) = false := by
    intro r hrm
    have h' : List.find? (fun x => x.asset_id == id) t = none := h
    have := List.find?_eq_none.mp h' r hrm
    simpa using this
  calc t.map f = t.map (fun r => r) :=
        List.map_congr_left (fun r hrm => hother r (habs r hrm))
    _ = t := List.map_id' t

/-- C9: for an `asset_id` with no row in the `assets` table, both
`mark_completed` and `mark_failed` run an `UPDATE` that matches zero rows:
no error is raised, no row is created, and the table is unchanged. -/
theorem mark_on_missing_id_is_noop (t : Table) (id immich err now : String)
    (fs ub ud : Nat) (h : lookup t id = none) :
    mark_completed t id immich fs ub ud now = t ∧
    mark_failed t id err now = t := by
  constructor
  · exact map_noop_of_absent t id _ h (fun r hr => by simp [hr])
  · exact map_noop_of_absent t id _ h (fun r hr => by simp [hr])

/-- Witness for C9 at a concrete table and an absent `asset_id`. -/
theorem mark_on_missing_id_is_noop_witness :
    lookup [rowTieA] "zz" = none ∧
    (mark_completed [rowTieA] "zz" "im" 1 2 3 "T" = [rowTieA] ∧
     mark_failed [rowTieA] "zz" "e" "T" = [rowTieA]) :=
  ⟨by decide, mark_on_missing_id_is_noop [rowTieA] "zz" "im" "e" "T" 1 2 3 (by decide)⟩

/-- C1 counterexample: on a concrete table holding one `completed` row,
`mark_failed` does not fail and does not leave the row unchanged — it
silently overwrites the completed status with `'failed'`. -/
theorem mark_failed_on_completed_cex :
    mark_failed [rowCompleted] "a1" "boom" "2024-02-02T00:00:00Z" ≠ [rowCompleted] ∧
    lookup (mark_failed [rowCompleted] "a1" "boom" "2024-02-02T00:00:00Z") "a1" =
      some { rowCompleted with
             status := "failed"
             error_message := some "boom"
             retry_count := 1
             processed_at := some "2024-02-02T00:00:00Z" } := by
  constructor
  · decide
  · rfl

/-- C1 (amended): `mark_failed` on an asset whose status is `completed`
raises no error and performs the unconditional `UPDATE`: the status is
silently overwritten with `'failed'`, the error message stored,
`retry_count` incremented and `processed_at` stamped, while `immich_id`
and the success metrics columns keep their previous values. -/
theorem mark_failed_on_completed_overwrites (t : Table) (id err now : String)
    (r : AssetRow) (h : lookup t id = some r) (_hc : r.status = "completed") :
    lookup (mark_failed t id err now) id =
      some { r with
             status := "failed"
             error_message := some err
             retry_count := r.retry_count + 1
             processed_at := some now } := by
  rw [lookup_mark_failed, h]
  rfl

/-- Witness for the amended C1 at a concrete completed row. -/
theorem mark_failed_on_completed_overwrites_witness :
    lookup (mark_failed [rowCompleted] "a1" "e" "T") "a1" =
      some { rowCompleted with
             status := "failed"
             error_message := some "e"
             retry_count := 1
             processed_at := some "T" } :=
  mark_failed_on_completed_overwrites [rowCompleted] "a1" "e" "T" rowCompleted
    (by decide) (by decide)

/-! ### Lemmas on bulk insert -/

theorem hasAsset_insertOrIgnore_self (t : Table) (a : AssetInput) :
    hasAsset (insertOrIgnore t a) a.id = true := by
  unfold insertOrIgnore
  by_cases h : hasAsset t a.id = true
  · simp [h]
  · simp only [h, if_false, Bool.false_eq_true]
    simp [hasAsset, List.any_append, newRow]

theorem hasAsset_insertOrIgnore_mono (t : Table) (a : AssetInput) (id : String)
    (h : hasAsset t id = true) : hasAsset (insertOrIgnore t a) id = true := by
  unfold insertOrIgnore
  split
  · exact h
  · simp only [hasAsset, List.any_append]
    simp only [hasAsset] at h
    simp [h]

theorem hasAsset_add_assets_mono :
    ∀ (S : List AssetInput) (t : Table) (id : String),
      hasAsset t id = true → hasAsset (add_assets t S) id = true
  | [], _, _, h => h
  | a :: S, t, id, h =>
    hasAsset_add_assets_mono S (insertOrIgnore t a) id
      (hasAsset_insertOrIgnore_mono t a id h)

theorem hasAsset_add_assets_mem :
    ∀ (S : List AssetInput) (t : Table) (a : AssetInput),
      a ∈ S → hasAsset (add_assets t S) a.id = true
  | [], _, _, h => absurd h (List.not_mem_nil _)
  | b :: S, t, a, h => by
    rcases List.mem_cons.mp h with rfl | h'
    · exact hasAsset_add_assets_mono S (insertOrIgnore t a) a.id
        (hasAsset_insertOrIgnore_self t a)
    · exact hasAsset_add_assets_mem S (insertOrIgnore t b) a h'

theorem insertOrIgnore_of_present (t : Table) (a : AssetInput)
    (h : hasAsset t a.id = true) : insertOrIgnore t a = t := by
  simp [insertOrIgnore, h]

theorem add_assets_of_present :
    ∀ (S : List AssetInput) (t : Table),
      (∀ a ∈ S, hasAsset t a.id = true) → add_assets t S = t
  | [], _, _ => rfl
  | a :: S, t, h => by
    have h1 : insertOrIgnore t a = t :=
      insertOrIgnore_of_present t a (h a (List.mem_cons_self a S))
    show add_assets (insertOrIgnore t a) S = t
    rw [h1]
    exact add_assets_of_present S t (fun b hb => h b (List.mem_cons_of_mem a hb))

theorem lookup_insertOrIgnore_isSome (t : Table) (a : AssetInput) (id : String)
    (h : (lookup t id).isSome = true) :
    lookup (insertOrIgnore t a) id = lookup t id := by
  unfold insertOrIgnore
  split
  · rfl
  · unfold lookup
    rw [List.find?_append]
    obtain ⟨r, hr⟩ := Option.isSome_iff_exists.mp h
    have hr' : List.find? (fun x => x.asset_id == id) t = some r := hr
    rw [hr']
    rfl

theorem lookup_add_assets_isSome :
    ∀ (S : List AssetInput) (t : Table) (id : String),
      (lookup t id).isSome = true → lookup (add_assets t S) id = lookup t id
  | [], _, _, _ => rfl
  | a :: S, t, id, h => by
    have h1 := lookup_insertOrIgnore_isSome t a id h
    show lookup (add_assets (insertOrIgnore t a) S) id = lookup t id
    rw [lookup_add_assets_isSome S (insertOrIgnore t a) id (by rw [h1]; exact h), h1]

/-- C4: bulk insert is idempotent and never overwrites: inserting the same
asset list twice yields the same table as inserting it once, and the row
of any `asset_id` already present is left exactly as it was. -/
theorem add_assets_idempotent :
    (∀ (t : Table) (S : List AssetInput),
        add_assets (add_assets t S) S = add_assets t S) ∧
    (∀ (t : Table) (S : List AssetInput) (id : String),
        (lookup t id).isSome = true →
        lookup (add_assets t S) id = lookup t id) := by
  constructor
  · intro t S
    exact add_assets_of_present S (add_assets t S)
      (fun a ha => hasAsset_add_assets_mem S t a ha)
  · intro t S id h
    exact lookup_add_assets_isSome S t id h

/-- Witness for C4 at a concrete table and asset list. -/
theorem add_assets_idempotent_witness :
    add_assets (add_assets [rowCompleted] [inputA]) [inputA]
      = add_assets [rowCompleted] [inputA] ∧
    ((lookup [rowCompleted] "a1").isSome = true ∧
     lookup (add_assets [rowCompleted] [inputA]) "a1" = lookup [rowCompleted] "a1") :=
  ⟨add_assets_idempotent.1 [rowCompleted] [inputA],
   by decide,
   add_assets_idempotent.2 [rowCompleted] [inputA] "a1" (by decide)⟩

/-! ### The eligibility query -/

/-- C5: no `completed` row ever appears in the output of
`get_pending_assets`, whatever the table state and `max_retries` value:
`completed` is terminal for the query. -/
theorem completed_never_eligible (t : Table) (max_retries : Nat) (r : AssetRow)
    (h : r ∈ get_pending_assets t max_retries) : r.status ≠ "completed" := by
  have hm : r ∈ t.filter (eligible max_retries) :=
    (List.mem_insertionSort dateLe).mp h
  have he : eligible max_retries r = true := (List.mem_filter.mp hm).2
  intro hc
  rw [eligible, hc] at he
  simp at he

/-- Witness for C5 at a concrete table. -/
theorem completed_never_eligible_witness :
    rowTieA ∈ get_pending_assets [rowTieA] 3 ∧ rowTieA.status ≠ "completed" :=
  ⟨by decide, completed_never_eligible [rowTieA] 3 rowTieA (by decide)⟩

/-- C6 counterexample: two eligible rows share a `creation_date`; the row
with the larger `asset_id` (`"b"`) was inserted first and comes out first,
so ties are not broken by `asset_id` — the SQL orders only by
`creation_date`. -/
theorem get_pending_tiebreak_cex :
    (get_pending_assets [rowTieB, rowTieA] 3).map AssetRow.asset_id = ["b", "a"] ∧
    rowTieB.creation_date = rowTieA.creation_date ∧
    strLt "a" "b" = true := by
  refine ⟨by decide, by decide, by decide⟩

/-- C6 (amended): `get_pending_assets` returns exactly the rows with
status `'pending'` or with status `'failed'` and `retry_count` strictly
below `max_retries`; the output is ordered by `creation_date` ascending
and is a permutation of the table filter, but rows with equal
`creation_date` come out in table order (the query has no secondary sort
key), not necessarily in `asset_id` order. -/
theorem get_pending_assets_spec (t : Table) (max_retries : Nat) :
    (∀ r, r ∈ get_pending_assets t max_retries ↔
        r ∈ t ∧ (r.status = "pending" ∨
                 (r.status = "failed" ∧ r.retry_count < max_retries))) ∧
    List.Sorted dateLe (get_pending_assets t max_retries) ∧
    List.Perm (get_pending_assets t max_retries) (t.filter (eligible max_retries)) := by
  refine ⟨fun r => ?_, ?_, ?_⟩
  · rw [get_pending_assets, List.mem_insertionSort, List.mem_filter]
    constructor
    · rintro ⟨hm, he⟩
      refine ⟨hm, ?_⟩
      rw [eligible] at he
      rcases Bool.or_eq_true_iff.mp he with h1 | h2
      · exact Or.inl (by simpa using h1)
      · rcases Bool.and_eq_true_iff.mp h2 with ⟨ha, hb⟩
        exact Or.inr ⟨by simpa using ha, by simpa using hb⟩
    · rintro ⟨hm, h1 | ⟨h2, h3⟩⟩
      · exact ⟨hm, by simp [eligible, h1]⟩
      · exact ⟨hm, by simp [eligible, h2, h3]⟩
  · exact List.sorted_insertionSort dateLe _
  · exact List.perm_insertionSort dateLe _

/-! ### CLI flag validation -/

/-- C10: any command line containing `--screenshots-only` is rejected by
the mutual-exclusion check in `main` before any orchestrator or state-store
work, because `--no-screenshots` is declared with `default=True` and is
therefore always set; the screenshots-only mode is unreachable from the
CLI. -/
theorem screenshots_only_always_rejected (flags : List String)
    (h : flags.contains "--screenshots-only" = true) :
    main_model flags =
      MainOutcome.cli_error "Cannot use both --screenshots-only and --no-screenshots" := by
  have hm : "--screenshots-only" ∈ flags := by simpa using h
  simp [main_model, parse_args, hm]

/-- Witness for C10 at a concrete command line. -/
theorem screenshots_only_always_rejected_witness :
    main_model ["--screenshots-only"] =
      MainOutcome.cli_error "Cannot use both --screenshots-only and --no-screenshots" :=
  screenshots_only_always_rejected ["--screenshots-only"] (by decide)

/-! ### The run exit code under cancellation -/

/-- C3 counterexample: a concrete run in which the cancellation flag is
set before the first asset and no asset is failed exits with code 0
(the success code), not with a distinct interrupted code 1: the graceful
shutdown path falls through to `_print_summary`, whose exit code depends
only on the `failed` count. -/
theorem interrupt_exit_cex :
    run_exit [rowTieA] 3 [1000] (fun _ _ => AttemptOutcome.failure "e")
        (fun _ => true) "T" = 0 ∧
    run_exit [rowTieA] 3 [1000] (fun _ _ => AttemptOutcome.failure "e")
        (fun _ => true) "T" ≠ 1 := by
  refine ⟨by decide, by decide⟩

/-- C3 (amended): when the cancellation flag is already set at the first
loop check, the processing loop exits immediately and the run returns
`_print_summary`'s code: 0 when no asset is in the `failed` state, 1
otherwise.  There is no distinct interrupted exit code on this path: the
installed SIGINT handler only sets the flag, so a graceful interrupt is
indistinguishable from a normal run in the exit code. -/
theorem run_exit_after_cancellation (t : Table) (max_retries : Nat)
    (retry_delays : List Nat) (outcomes : String → Nat → AttemptOutcome)
    (shutdownAt : Nat → Bool) (now : String) (hsd : shutdownAt 0 = true) :
    run_exit t max_retries retry_delays outcomes shutdownAt now =
      if countStatus t "failed" = 0 then 0 else 1 := by
  unfold run_exit process_assets
  cases hgp : get_pending_assets t max_retries with
  | nil => rfl
  | cons a rest =>
    unfold processList
    rw [if_pos hsd]
    rfl

/-- Witness for the amended C3 at a concrete run. -/
theorem run_exit_after_cancellation_witness :
    run_exit [rowTieA] 3 [1000] (fun _ _ => AttemptOutcome.failure "e")
        (fun _ => true) "T" =
      if countStatus [rowTieA] "failed" = 0 then 0 else 1 :=
  run_exit_after_cancellation [rowTieA] 3 [1000]
    (fun _ _ => AttemptOutcome.failure "e") (fun _ => true) "T" (by decide)

/-! ### The backoff schedule -/

theorem processAttempts_cons_failure (t : Table) (id : String) (m : Nat)
    (delays : List Nat) (outcomes : Nat → AttemptOutcome) (now : String)
    (attempt : Nat) (rest : List Nat) (err : String)
    (hout : outcomes attempt = AttemptOutcome.failure err) :
    processAttempts t id m delays outcomes now (attempt :: rest) =
      if attempt < m - 1 then
        ⟨(processAttempts t id m delays outcomes now rest).table,
         (processAttempts t id m delays outcomes now rest).ok,
         backoffDelay delays attempt ::
           (processAttempts t id m delays outcomes now rest).sleeps⟩
      else ⟨mark_failed t id err now, false, []⟩ := by
  simp only [processAttempts, hout]

theorem processAttempts_allfail_sleeps :
    ∀ (n s : Nat) (t : Table) (id err now : String) (m : Nat) (delays : List Nat),
      s + n = m →
      (processAttempts t id m delays (allFail err) now (List.range' s n)).sleeps
        = (List.range' s (n - 1)).map (backoffDelay delays)
  | 0, s, t, id, err, now, m, delays, _ => rfl
  | 1, s, t, id, err, now, m, delays, h => by
    have hns : ¬ s < m - 1 := by omega
    simp [List.range'_succ, processAttempts, allFail, hns]
  | n + 2, s, t, id, err, now, m, delays, h => by
    have hlt : s < m - 1 := by omega
    rw [List.range'_succ,
      processAttempts_cons_failure t id m delays (allFail err) now s _ err rfl,
      if_pos hlt]
    dsimp only
    rw [processAttempts_allfail_sleeps (n + 1) (s + 1) t id err now m delays (by omega)]
    simp [List.range'_succ]

theorem processAttempts_allfail_table :
    ∀ (n s : Nat) (t : Table) (id err now : String) (m : Nat) (delays : List Nat),
      s + n = m → 0 < n →
      (processAttempts t id m delays (allFail err) now (List.range' s n)).table
        = mark_failed t id err now
  | 1, s, t, id, err, now, m, delays, h, _ => by
    have hns : ¬ s < m - 1 := by omega
    simp [List.range'_succ, processAttempts, allFail, hns]
  | n + 2, s, t, id, err, now, m, delays, h, _ => by
    have hlt : s < m - 1 := by omega
    rw [List.range'_succ,
      processAttempts_cons_failure t id m delays (allFail err) now s _ err rfl,
      if_pos hlt]
    dsimp only
    exact processAttempts_allfail_table (n + 1) (s + 1) t id err now m delays (by omega)
      (by omega)

/-- C7 counterexample: with delays `[1000, 2000, 5000]` and
`max_retries = 5`, an asset failing every attempt waits exactly four
times — 1000, 2000, 5000, 5000 ms at attempt indices 0-3.  Attempt index
4 is the final attempt and performs no wait (it records the failure), so
the claimed five waits `1000, 2000, 5000, 5000, 5000` do not occur. -/
theorem backoff_schedule_cex :
    (process_asset_with_retries [rowTieA] "a" 5 [1000, 2000, 5000]
        (allFail "e") "T").sleeps = [1000, 2000, 5000, 5000] ∧
    [1000, 2000, 5000, 5000] ≠ ([1000, 2000, 5000, 5000, 5000] : List Nat) := by
  refine ⟨by decide, by decide⟩

/-- C7 (amended): for every attempt index `i` that precedes a retry
(`i < max_retries - 1`), the wait before the next retry equals
`retry_delays[min(i, len(retry_delays) - 1)]`; the final attempt index
performs no wait.  In particular, with delays `[1000, 2000, 5000]` and
`max_retries = 5`, the waits performed are 1000, 2000, 5000, 5000 ms at
attempt indices 0 through 3. -/
theorem backoff_schedule (t : Table) (id err now : String) (m : Nat)
    (delays : List Nat) (_hm : 0 < m) (_hd : delays ≠ []) :
    (process_asset_with_retries t id m delays (allFail err) now).sleeps
      = (List.range (m - 1)).map (backoffDelay delays) ∧
    (process_asset_with_retries t id 5 [1000, 2000, 5000] (allFail err) now).sleeps
      = [1000, 2000, 5000, 5000] := by
  constructor
  · unfold process_asset_with_retries
    rw [List.range_eq_range', List.range_eq_range',
      processAttempts_allfail_sleeps m 0 t id err now m delays (by omega)]
  · unfold process_asset_with_retries
    rw [List.range_eq_range',
      processAttempts_allfail_sleeps 5 0 t id err now 5 [1000, 2000, 5000] (by omega)]
    decide

/-- Witness for the amended C7 at a concrete run. -/
theorem backoff_schedule_witness :
    (process_asset_with_retries [rowTieA] "a" 3 [1000, 2000] (allFail "e") "T").sleeps
      = (List.range 2).map (backoffDelay [1000, 2000]) ∧
    (process_asset_with_retries [rowTieA] "a" 5 [1000, 2000, 5000] (allFail "e") "T").sleeps
      = [1000, 2000, 5000, 5000] :=
  backoff_schedule [rowTieA] "a" "e" "T" 3 [1000, 2000] (by decide) (by decide)

/-! ### Retry-count monotonicity -/

theorem retryOf_mark_failed_some (t : Table) (id e n : String)
    (h : (lookup t id).isSome = true) :
    retryOf (mark_failed t id e n) id = retryOf t id + 1 := by
  unfold retryOf
  rw [lookup_mark_failed]
  obtain ⟨r, hr⟩ := Option.isSome_iff_exists.mp h
  rw [hr]
  rfl

theorem lookup_mark_failed_isSome (t : Table) (id e n : String)
    (h : (lookup t id).isSome = true) :
    (lookup (mark_failed t id e n) id).isSome = true := by
  rw [lookup_mark_failed]
  cases hl : lookup t id with
  | none => rw [hl] at h; simp at h
  | some r => rfl

theorem retryOf_failure_fold :
    ∀ (evs : List (String × String)) (t : Table) (id : String),
      (lookup t id).isSome = true →
      retryOf (evs.foldl (fun s e => mark_failed s id e.1 e.2) t) id
        = retryOf t id + evs.length
  | [], _, _, _ => by simp
  | e :: evs, t, id, h => by
    simp only [List.foldl_cons, List.length_cons]
    rw [retryOf_failure_fold evs (mark_failed t id e.1 e.2) id
        (lookup_mark_failed_isSome t id e.1 e.2 h),
      retryOf_mark_failed_some t id e.1 e.2 h]
    omega

theorem retryOf_insertOrIgnore_mono (t : Table) (a : AssetInput) (id : String) :
    retryOf t id ≤ retryOf (insertOrIgnore t a) id := by
  by_cases h : (lookup t id).isSome = true
  · have he : retryOf (insertOrIgnore t a) id = retryOf t id := by
      unfold retryOf
      rw [lookup_insertOrIgnore_isSome t a id h]
    rw [he]
  · have hn : lookup t id = none := by
      cases hl : lookup t id with
      | none => rfl
      | some r => rw [hl] at h; simp at h
    unfold retryOf
    rw [hn]
    exact Nat.zero_le _

theorem retryOf_add_assets_mono :
    ∀ (S : List AssetInput) (t : Table) (id : String),
      retryOf t id ≤ retryOf (add_assets t S) id
  | [], _, _ => Nat.le_refl _
  | a :: S, t, id =>
    Nat.le_trans (retryOf_insertOrIgnore_mono t a id)
      (retryOf_add_assets_mono S (insertOrIgnore t a) id)

theorem retryOf_applyOp_mono (t : Table) (op : DBOp) (id : String) :
    retryOf t id ≤ retryOf (applyOp t op) id := by
  cases op with
  | addAssets S => exact retryOf_add_assets_mono S t id
  | markCompleted aid im fs ub ud now =>
    exact retryOf_map_mono t _ id
      (fun r => by by_cases hc : (r.asset_id == aid) = true <;> simp [hc])
      (fun r => by by_cases hc : (r.asset_id == aid) = true <;> simp [hc])
  | markFailed aid e n =>
    exact retryOf_map_mono t _ id
      (fun r => by by_cases hc : (r.asset_id == aid) = true <;> simp [hc])
      (fun r => by
        by_cases hc : (r.asset_id == aid) = true
        · simp [hc]
        · simp [hc])

theorem retryOf_ops_mono :
    ∀ (ops : List DBOp) (t : Table) (id : String),
      retryOf t id ≤ retryOf (ops.foldl applyOp t) id
  | [], _, _ => Nat.le_refl _
  | op :: ops, t, id =>
    Nat.le_trans (retryOf_applyOp_mono t op id)
      (retryOf_ops_mono ops (applyOp t op) id)

/-- C2: `retry_count` counts completed failed attempts and never
decreases.  (1) Starting from a row with `retry_count` 0, after N
`mark_failed` events on that asset the stored `retry_count` is exactly N.
(2) Over any sequence of state-store operations (bulk inserts,
`mark_completed`, `mark_failed` on any assets) an asset's stored
`retry_count` never decreases.  (3) One pass of the per-asset processing
loop whose attempts all fail performs exactly one `mark_failed`,
incrementing the asset's `retry_count` by exactly one. -/
theorem retry_count_monotone :
    (∀ (t : Table) (id : String) (r : AssetRow) (evs : List (String × String)),
        lookup t id = some r → r.retry_count = 0 →
        retryOf (evs.foldl (fun s e => mark_failed s id e.1 e.2) t) id = evs.length) ∧
    (∀ (t : Table) (id : String) (ops : List DBOp),
        retryOf t id ≤ retryOf (ops.foldl applyOp t) id) ∧
    (∀ (t : Table) (id err now : String) (m : Nat) (delays : List Nat),
        (lookup t id).isSome = true → 0 < m →
        retryOf ((process_asset_with_retries t id m delays (allFail err) now).table) id
          = retryOf t id + 1) := by
  refine ⟨?_, ?_, ?_⟩
  · intro t id r evs h h0
    rw [retryOf_failure_fold evs t id (by rw [h]; rfl)]
    unfold retryOf
    rw [h]
    simp [h0]
  · intro t id ops
    exact retryOf_ops_mono ops t id
  · intro t id err now m delays h hm
    unfold process_asset_with_retries
    rw [List.range_eq_range',
      processAttempts_allfail_table m 0 t id err now m delays (by omega) hm]
    exact retryOf_mark_failed_some t id err now h

/-- Witness for C2 at concrete tables, event lists and runs. -/
theorem retry_count_monotone_witness :
    retryOf ([("e1", "T1"), ("e2", "T2")].foldl
        (fun s e => mark_failed s "a" e.1 e.2) [rowTieA]) "a" = 2 ∧
    retryOf [rowTieA] "a" ≤
      retryOf ([DBOp.markFailed "a" "e" "T"].foldl applyOp [rowTieA]) "a" ∧
    retryOf ((process_asset_with_retries [rowTieA] "a" 3 [1000]
        (allFail "e") "T").table) "a" = retryOf [rowTieA] "a" + 1 :=
  ⟨retry_count_monotone.1 [rowTieA] "a" rowTieA [("e1", "T1"), ("e2", "T2")]
      (by decide) (by decide),
   retry_count_monotone.2.1 [rowTieA] "a" [DBOp.markFailed "a" "e" "T"],
   retry_count_monotone.2.2 [rowTieA] "a" "e" "T" 3 [1000] (by decide) (by decide)⟩

/-! ### Backup retention -/

theorem keepLast5_append (A B : List String) :
    keepLast5 (keepLast5 A ++ B) = keepLast5 (A ++ B) := by
  unfold keepLast5
  rw [List.drop_append_eq_append_drop, List.drop_append_eq_append_drop,
    List.drop_drop]
  congr 1
  · congr 1
    simp only [List.length_append, List.length_drop]
    omega
  · congr 1
    simp only [List.length_append, List.length_drop]
    omega

theorem backup_database_step (files : List String) (ts : String)
    (hs : List.Pairwise strLtR (files ++ [backupName ts])) :
    backup_database files ts = keepLast5 (files ++ [backupName ts]) := by
  have hnm : backupName ts ∉ files := by
    intro hmem
    have hlt : strLtR (backupName ts) (backupName ts) :=
      (List.pairwise_append.mp hs).2.2 (backupName ts) hmem (backupName ts)
        (List.mem_singleton.mpr rfl)
    exact strLtR_ne hlt rfl
  have hcon : files.contains (backupName ts) = false := by
    cases hcon : files.contains (backupName ts)
    · rfl
    · exact absurd (by simpa using hcon) hnm
  have hsorted : List.Sorted strLeR (files ++ [backupName ts]) :=
    hs.imp (fun h => strLtR_le h)
  simp only [backup_database, hcon, Bool.false_eq_true, if_false]
  rw [List.Sorted.insertionSort_eq hsorted]

theorem backup_fold :
    ∀ (ts : List String) (files : List String),
      files.length ≤ 5 →
      List.Pairwise strLtR (files ++ ts.map backupName) →
      ts.foldl backup_database files = keepLast5 (files ++ ts.map backupName)
  | [], files, h5, _ => by
    simp only [List.map_nil, List.append_nil, List.foldl_nil]
    unfold keepLast5
    rw [show files.length - 5 = 0 from by omega, List.drop_zero]
  | t :: ts, files, h5, hp => by
    simp only [List.map_cons, List.foldl_cons]
    have hp1 : List.Pairwise strLtR (files ++ [backupName t]) :=
      hp.sublist (List.Sublist.append_left ((List.nil_sublist _).cons₂ _) files)
    rw [backup_database_step files t hp1]
    have h5' : (keepLast5 (files ++ [backupName t])).length ≤ 5 := by
      unfold keepLast5
      rw [List.length_drop]
      omega
    have hp' : List.Pairwise strLtR
        ((files ++ [backupName t]) ++ ts.map backupName) := by
      rw [List.append_assoc]
      exact hp
    have hp2 : List.Pairwise strLtR
        (keepLast5 (files ++ [backupName t]) ++ ts.map backupName) :=
      hp'.sublist
        (List.Sublist.append (List.drop_sublist _ _) (List.Sublist.refl _))
    rw [backup_fold ts _ h5' hp2, keepLast5_append, List.append_assoc]
    rfl

/-- C8: starting with no backups, 7 successive `backup()` calls with
strictly increasing fixed-width timestamps leave exactly 5 backup files,
namely the 5 most recent ones (the two oldest are pruned, lexicographic
filename order coinciding with timestamp order). -/
theorem backup_retention (ts : List String)
    (hlen : ts.length = 7)
    (hchain : List.Chain' strLtR ts)
    (hts : ∀ s ∈ ts, s.length = 19) :
    ts.foldl backup_database [] = (ts.map backupName).drop 2 ∧
    (ts.foldl backup_database []).length = 5 := by
  have hpair : List.Pairwise strLtR ts := List.chain'_iff_pairwise.mp hchain
  have hnames : List.Pairwise strLtR (ts.map backupName) := by
    rw [List.pairwise_map]
    refine hpair.imp_of_mem ?_
    intro a b ha hb hab
    exact strLt_backupName (by rw [hts a ha, hts b hb]) hab
  have hfold := backup_fold ts [] (by simp) (by simpa using hnames)
  rw [List.nil_append] at hfold
  have hdrop : keepLast5 (ts.map backupName) = (ts.map backupName).drop 2 := by
    unfold keepLast5
    congr 1
    rw [List.length_map, hlen]
  refine ⟨by rw [hfold, hdrop], ?_⟩
  rw [hfold, hdrop, List.length_drop, List.length_map, hlen]

/-- Witness for C8 at 7 concrete second-spaced timestamps. -/
theorem backup_retention_witness :
    (["2024-01-01_00-00-01", "2024-01-01_00-00-02", "2024-01-01_00-00-03",
      "2024-01-01_00-00-04", "2024-01-01_00-00-05", "2024-01-01_00-00-06",
      "2024-01-01_00-00-07"].foldl backup_database []
      = (["2024-01-01_00-00-01", "2024-01-01_00-00-02", "2024-01-01_00-00-03",
          "2024-01-01_00-00-04", "2024-01-01_00-00-05", "2024-01-01_00-00-06",
          "2024-01-01_00-00-07"].map backupName).drop 2) ∧
    (["2024-01-01_00-00-01", "2024-01-01_00-00-02", "2024-01-01_00-00-03",
      "2024-01-01_00-00-04", "2024-01-01_00-00-05", "2024-01-01_00-00-06",
      "2024-01-01_00-00-07"].foldl backup_database []).length = 5 :=
  backup_retention
    ["2024-01-01_00-00-01", "2024-01-01_00-00-02", "2024-01-01_00-00-03",
     "2024-01-01_00-00-04", "2024-01-01_00-00-05", "2024-01-01_00-00-06",
     "2024-01-01_00-00-07"]
    (by decide)
    (by simp only [List.chain'_cons, List.chain'_singleton]; decide)
    (by decide)
